import Mathlib

/-
Verification development for the event-preprocessing and RGBD-velocity core
of the iKalibr repository.

Shallow embedding conventions:
* `double` values are embedded as exact rationals (`ℚ`); where IEEE-754
  non-finite behaviour matters (the norm-flow degeneracy test) a dedicated
  carrier `FVal` with `nan` / infinities is used instead.
* Eigen matrices indexed by pixel become total functions `Bool → ℕ → ℕ → ℚ`
  (polarity, x, y); the constructor zeroes them, matching
  `Eigen::MatrixXd::Zero`.
* External collaborators (the ctraj spline helpers) are passed in as oracle
  functions; the embedding only fixes how and at which time they are queried.
-/

namespace IKalibr

/-- A single camera event: polarity, pixel position, timestamp
(`Event` of the repository, with `double` time embedded as `ℚ`). -/
structure Event where
  polarity : Bool
  x : ℕ
  y : ℕ
  t : ℚ
deriving DecidableEq, Repr

/-- `ActiveEventSurface` state: the debounce threshold `FILTER_THD`,
image size, the surfaces of active events `_sae` and `_saeLatest`
(per polarity), and the latest global timestamp `_timeLatest`. -/
structure ActiveEventSurface where
  FILTER_THD : ℚ
  imgWidth : ℕ
  imgHeight : ℕ
  sae : Bool → ℕ → ℕ → ℚ
  saeLatest : Bool → ℕ → ℕ → ℚ
  timeLatest : ℚ

/-- Pointwise update of one polarity plane at pixel (x, y). -/
def polUpdate (f : Bool → ℕ → ℕ → ℚ) (p : Bool) (x y : ℕ) (v : ℚ) :
    Bool → ℕ → ℕ → ℚ :=
  fun q i j => if q = p ∧ i = x ∧ j = y then v else f q i j

/-- `ActiveEventSurface::ActiveEventSurface` (event_preprocessing.cpp,
lines 51-62): all four surfaces zeroed, `_timeLatest = 0.0`. -/
def ActiveEventSurface.Create (w h : ℕ) (filterThd : ℚ) : ActiveEventSurface where
  FILTER_THD := filterThd
  imgWidth := w
  imgHeight := h
  sae := fun _ _ _ => 0
  saeLatest := fun _ _ _ => 0
  timeLatest := 0

/-- `ActiveEventSurface::GrabEvent` (event_preprocessing.cpp, lines 69-93).
`tLast` and `tLastInv` are references into `_saeLatest`; on the accept
branch both `_saeLatest[pol]` and `_sae[pol]` are set to `et`, otherwise
only `_saeLatest[pol]` is.  `_timeLatest` is set to `et` unconditionally. -/
def ActiveEventSurface.GrabEvent (s : ActiveEventSurface) (ep : Bool) (ex ey : ℕ)
    (et : ℚ) : ActiveEventSurface :=
  let tLast := s.saeLatest ep ex ey
  let tLastInv := s.saeLatest (!ep) ex ey
  if et > tLast + s.FILTER_THD ∨ tLastInv > tLast then
    { s with
      saeLatest := polUpdate s.saeLatest ep ex ey et
      sae := polUpdate s.sae ep ex ey et
      timeLatest := et }
  else
    { s with
      saeLatest := polUpdate s.saeLatest ep ex ey et
      timeLatest := et }

/-- `ActiveEventSurface::GrabEvent` on an `EventArray`
(event_preprocessing.cpp, lines 95-99): events applied in order. -/
def ActiveEventSurface.GrabEvents (s : ActiveEventSurface) (events : List Event) :
    ActiveEventSurface :=
  events.foldl (fun acc e => acc.GrabEvent e.polarity e.x e.y e.t) s

/-!
IEEE-754-style value carrier for the norm-flow degeneracy test.  The flow
vector `nf` in `EventNormFlow::ExtractNormFlows` divides by
`dtdx*dtdx + dtdy*dtdy` without a zero guard, so the embedding must keep
track of infinities and NaN.  Finite arithmetic is kept exact (rationals);
rounding is not modelled, only the non-finite propagation rules.
-/

/-- A `double` value: finite (exact rational), `+inf`, `-inf`, or `nan`. -/
inductive FVal where
  | fin : ℚ → FVal
  | pinf : FVal
  | ninf : FVal
  | nan : FVal
deriving DecidableEq, Repr

namespace FVal

/-- IEEE-754 multiplication on the embedded values. -/
def mul : FVal → FVal → FVal
  | nan, _ => nan
  | fin _, nan => nan
  | pinf, nan => nan
  | ninf, nan => nan
  | fin a, fin b => fin (a * b)
  | pinf, pinf => pinf
  | pinf, ninf => ninf
  | ninf, pinf => ninf
  | ninf, ninf => pinf
  | pinf, fin b => if b = 0 then nan else if 0 < b then pinf else ninf
  | ninf, fin b => if b = 0 then nan else if 0 < b then ninf else pinf
  | fin a, pinf => if a = 0 then nan else if 0 < a then pinf else ninf
  | fin a, ninf => if a = 0 then nan else if 0 < a then ninf else pinf

/-- IEEE-754 addition on the embedded values. -/
def add : FVal → FVal → FVal
  | nan, _ => nan
  | fin _, nan => nan
  | pinf, nan => nan
  | ninf, nan => nan
  | fin a, fin b => fin (a + b)
  | pinf, ninf => nan
  | ninf, pinf => nan
  | pinf, pinf => pinf
  | ninf, ninf => ninf
  | pinf, fin _ => pinf
  | ninf, fin _ => ninf
  | fin _, pinf => pinf
  | fin _, ninf => ninf

/-- IEEE-754 division (a zero divisor is `+0.0`, as produced by the sum of
squares in the flow computation). -/
def div : FVal → FVal → FVal
  | nan, _ => nan
  | fin _, nan => nan
  | pinf, nan => nan
  | ninf, nan => nan
  | fin a, fin b =>
      if b = 0 then (if a = 0 then nan else if 0 < a then pinf else ninf)
      else fin (a / b)
  | fin _, pinf => fin 0
  | fin _, ninf => fin 0
  | pinf, fin b => if 0 ≤ b then pinf else ninf
  | ninf, fin b => if 0 ≤ b then ninf else pinf
  | pinf, pinf => nan
  | pinf, ninf => nan
  | ninf, pinf => nan
  | ninf, ninf => nan

/-- IEEE-754 strict less-than: any comparison involving `nan` is false. -/
def ltb : FVal → FVal → Bool
  | nan, _ => false
  | fin _, nan => false
  | pinf, nan => false
  | ninf, nan => false
  | fin a, fin b => decide (a < b)
  | fin _, pinf => true
  | fin _, ninf => false
  | pinf, pinf => false
  | pinf, ninf => false
  | pinf, fin _ => false
  | ninf, ninf => false
  | ninf, pinf => true
  | ninf, fin _ => true

/-- Whether a value is finite. -/
def isFinite : FVal → Bool
  | fin _ => true
  | pinf => false
  | ninf => false
  | nan => false

end FVal

/-!
The per-pixel tail of `EventNormFlow::ExtractNormFlows`
(event_preprocessing.cpp, lines 360-378): after the RANSAC plane fit
succeeds with refit coefficients `abc = (A, B, C)`, the flow vector is
computed and either discarded (the `continue`, which skips both the
`NormFlow` record and the inlier marking) or recorded.
-/

namespace EventNormFlow

/-- Flow computation and degeneracy test from refit plane coefficients
`A = abc(0)`, `B = abc(1)`:
`dtdx = -A`, `dtdy = -B`, `nf = 1/(dtdx*dtdx + dtdy*dtdy) * (dtdx, dtdy)`;
`none` (the `continue`) exactly when `nf.squaredNorm() > 4E3 * 4E3`. -/
def flowFromPlane (A B : ℚ) : Option (FVal × FVal) :=
  let dtdx := FVal.fin (-A)
  let dtdy := FVal.fin (-B)
  let denom := (dtdx.mul dtdx).add (dtdy.mul dtdy)
  let scale := (FVal.fin 1).div denom
  let nfx := scale.mul dtdx
  let nfy := scale.mul dtdy
  let sqNorm := (nfx.mul nfx).add (nfy.mul nfy)
  if (FVal.fin (4000 * 4000)).ltb sqNorm then none
  else some (nfx, nfy)

end EventNormFlow

/-! Small exact linear algebra carriers (3-vectors and 3x3 / 2x3 matrices
over ℚ), used by the plane-fit solve and the RGBD velocity factor. -/

/-- A 3-vector of rationals. -/
abbrev Vec3 := ℚ × ℚ × ℚ

/-- A 2-vector of rationals. -/
abbrev Vec2 := ℚ × ℚ

/-- Dot product of 3-vectors. -/
def dot3 (a b : Vec3) : ℚ := a.1 * b.1 + a.2.1 * b.2.1 + a.2.2 * b.2.2

/-- A 3x3 rational matrix, stored as rows. -/
structure Mat3 where
  r0 : Vec3
  r1 : Vec3
  r2 : Vec3
deriving DecidableEq, Repr

/-- Matrix-vector product. -/
def Mat3.mulVec (m : Mat3) (v : Vec3) : Vec3 :=
  (dot3 m.r0 v, dot3 m.r1 v, dot3 m.r2 v)

/-- Matrix transpose. -/
def Mat3.transpose (m : Mat3) : Mat3 where
  r0 := (m.r0.1, m.r1.1, m.r2.1)
  r1 := (m.r0.2.1, m.r1.2.1, m.r2.2.1)
  r2 := (m.r0.2.2, m.r1.2.2, m.r2.2.2)

/-- Matrix negation. -/
def Mat3.neg (m : Mat3) : Mat3 where
  r0 := (-m.r0.1, -m.r0.2.1, -m.r0.2.2)
  r1 := (-m.r1.1, -m.r1.2.1, -m.r1.2.2)
  r2 := (-m.r2.1, -m.r2.2.1, -m.r2.2.2)

/-- Determinant of a 3x3 matrix. -/
def det3 (m : Mat3) : ℚ :=
  m.r0.1 * (m.r1.2.1 * m.r2.2.2 - m.r1.2.2 * m.r2.2.1) -
  m.r0.2.1 * (m.r1.1 * m.r2.2.2 - m.r1.2.2 * m.r2.1) +
  m.r0.2.2 * (m.r1.1 * m.r2.2.1 - m.r1.2.1 * m.r2.1)

/-- Replace column 0 of a matrix by a vector (for Cramer's rule). -/
def Mat3.setCol0 (m : Mat3) (b : Vec3) : Mat3 where
  r0 := (b.1, m.r0.2.1, m.r0.2.2)
  r1 := (b.2.1, m.r1.2.1, m.r1.2.2)
  r2 := (b.2.2, m.r2.2.1, m.r2.2.2)

/-- Replace column 1 of a matrix by a vector (for Cramer's rule). -/
def Mat3.setCol1 (m : Mat3) (b : Vec3) : Mat3 where
  r0 := (m.r0.1, b.1, m.r0.2.2)
  r1 := (m.r1.1, b.2.1, m.r1.2.2)
  r2 := (m.r2.1, b.2.2, m.r2.2.2)

/-- Replace column 2 of a matrix by a vector (for Cramer's rule). -/
def Mat3.setCol2 (m : Mat3) (b : Vec3) : Mat3 where
  r0 := (m.r0.1, m.r0.2.1, b.1)
  r1 := (m.r1.1, m.r1.2.1, b.2.1)
  r2 := (m.r2.1, m.r2.2.1, b.2.2)

/-- Exact solve of `m *ᵥ sol = b` by Cramer's rule; this embeds Eigen's
`ldlt().solve`, which on a nonsingular system returns the unique exact
solution (the `det3 m = 0` fallback value is unconstrained, as is the
behaviour of `ldlt` on a singular normal matrix). -/
def cramerSolve (m : Mat3) (b : Vec3) : Vec3 :=
  let d := det3 m
  if d = 0 then (0, 0, 0)
  else (det3 (m.setCol0 b) / d, det3 (m.setCol1 b) / d, det3 (m.setCol2 b) / d)

/-!
`EventLocalPlaneSacProblem` (event_preprocessing.cpp, lines 448-489): the
sample-consensus model for the local spatiotemporal plane
`t = -(A*x + B*y + C)`.
-/

namespace EventLocalPlaneSacProblem

/-- `EventLocalPlaneSacProblem::getSampleSize` (line 448). -/
def getSampleSize : ℕ := 3

/-- `EventLocalPlaneSacProblem::PointToPlaneDistance` (lines 450-457):
`tPred = -(A*x + B*y + C)`, distance `|t - tPred|`. -/
def PointToPlaneDistance (x y t A B C : ℚ) : ℚ :=
  let tPred := -(A * x + B * y + C)
  |t - tPred|

/-- The rows selected by `indices` from `_data` (source: `_data.at(indices.at(i))`,
with in-range indices; out-of-range indices are dropped in the embedding). -/
def selectedData (data : List (ℚ × ℚ × ℚ)) (indices : List ℕ) :
    List (ℚ × ℚ × ℚ) :=
  indices.filterMap (fun i => data.get? i)

/-- The normal matrix `M^T * M` for rows `(x, y, 1)` over the points. -/
def MtM (pts : List (ℚ × ℚ × ℚ)) : Mat3 where
  r0 := ((pts.map (fun p => p.1 * p.1)).sum,
         (pts.map (fun p => p.1 * p.2.1)).sum,
         (pts.map (fun p => p.1)).sum)
  r1 := ((pts.map (fun p => p.1 * p.2.1)).sum,
         (pts.map (fun p => p.2.1 * p.2.1)).sum,
         (pts.map (fun p => p.2.1)).sum)
  r2 := ((pts.map (fun p => p.1)).sum,
         (pts.map (fun p => p.2.1)).sum,
         (pts.map (fun _ => (1 : ℚ))).sum)

/-- The right-hand side `M^T * b` with `b(i) = -t_i`. -/
def Mtb (pts : List (ℚ × ℚ × ℚ)) : Vec3 :=
  ((pts.map (fun p => p.1 * (-p.2.2))).sum,
   (pts.map (fun p => p.2.1 * (-p.2.2))).sum,
   (pts.map (fun p => -p.2.2)).sum)

/-- `EventLocalPlaneSacProblem::computeModelCoefficients` (lines 459-473):
build `M` with rows `(x, y, 1)` and `b = -t` over the selected points and
return the normal-equations solution
`outModel = (M^T M).ldlt().solve(M^T b)`. -/
def computeModelCoefficients (data : List (ℚ × ℚ × ℚ)) (indices : List ℕ) :
    Vec3 :=
  let pts := selectedData data indices
  cramerSolve (MtM pts) (Mtb pts)

end EventLocalPlaneSacProblem

/-!
`EventNormFlow::NormFlowPack` and its two derived event views
(event_preprocessing.cpp, lines 183-230).
-/

/-- The fields of `EventNormFlow::NormFlowPack` needed by the derived
views: the raw time-surface map, the polarity map, the inlier-occupancy
mask, and the reference timestamp.  `cv::Mat` maps become total functions
of (row, col). -/
structure NormFlowPack where
  rows : ℕ
  cols : ℕ
  rawTimeSurfaceMap : ℕ → ℕ → ℚ
  polarityMap : ℕ → ℕ → Bool
  inliersOccupy : ℕ → ℕ → Bool
  timestamp : ℚ

namespace NormFlowPack

/-- The event list built by `NormFlowPack::ActiveEvents` (lines 183-197):
row-major scan; a pixel is skipped when `et < 1E-3 || timestamp - et > dt`. -/
def activeEventList (pk : NormFlowPack) (dt : ℚ) : List Event :=
  (List.range pk.rows).flatMap fun ey =>
    (List.range pk.cols).filterMap fun ex =>
      let et := pk.rawTimeSurfaceMap ey ex
      if et < 1 / 1000 ∨ pk.timestamp - et > dt then none
      else some ⟨pk.polarityMap ey ex, ex, ey, et⟩

/-- `NormFlowPack::ActiveEvents` (lines 183-204): `nullptr` (here `none`)
when the list is empty, otherwise an `EventArray` whose reference time is
the last collected event's timestamp. -/
def ActiveEvents (pk : NormFlowPack) (dt : ℚ) : Option (ℚ × List Event) :=
  let events := pk.activeEventList dt
  match events.getLast? with
  | some last => some (last.t, events)
  | none => none

/-- The event list built by `NormFlowPack::NormFlowEvents` (lines 206-223):
a pixel is skipped when `et < 1E-3` or when `inliersOccupy` is clear. -/
def normFlowEventList (pk : NormFlowPack) : List Event :=
  (List.range pk.rows).flatMap fun ey =>
    (List.range pk.cols).filterMap fun ex =>
      let et := pk.rawTimeSurfaceMap ey ex
      if et < 1 / 1000 then none
      else if pk.inliersOccupy ey ex = false then none
      else some ⟨pk.polarityMap ey ex, ex, ey, et⟩

/-- `NormFlowPack::NormFlowEvents` (lines 206-230): `nullptr` (here `none`)
when the list is empty, otherwise an `EventArray` whose reference time is
the last collected event's timestamp. -/
def NormFlowEvents (pk : NormFlowPack) : Option (ℚ × List Event) :=
  let events := pk.normFlowEventList
  match events.getLast? with
  | some last => some (last.t, events)
  | none => none

end NormFlowPack

/-!
`OpticalFlowCorr` and `RGBDVelocityFactor` (rgbd_velocity_factor.hpp).
-/

/-- Three consecutive samples of one tracked quantity
(`std::array<double, 3>`). -/
structure Triple where
  a0 : ℚ
  a1 : ℚ
  a2 : ℚ
deriving DecidableEq, Repr

/-- `OpticalFlowCorr` (rgbd_velocity_factor.hpp, lines 55-137): three
time/x/y samples, per-sample rolling-shutter row factors, depth and
inverse depth, and a weight.  The anchor sample is index `MID = 1`. -/
structure OpticalFlowCorr where
  timeAry : Triple
  xTraceAry : Triple
  yTraceAry : Triple
  rdFactorAry : Triple
  depth : ℚ
  invDepth : ℚ
  withDepthObservability : Bool
  weight : ℚ
deriving DecidableEq, Repr

namespace OpticalFlowCorr

/-- `OpticalFlowCorr::OpticalFlowCorr` (lines 74-92):
`invDepth = depth > 1E-3 ? 1.0 / depth : -1.0`, and
`rdFactorAry[i] = yTraceAry[i] / imgHeight - rsExpFactor` with
`imgHeight = frame->GetImage().rows`. -/
def Create (timeAry xTraceAry yTraceAry : Triple) (depth : ℚ) (imgHeight : ℕ)
    (rsExpFactor : ℚ) : OpticalFlowCorr where
  timeAry := timeAry
  xTraceAry := xTraceAry
  yTraceAry := yTraceAry
  rdFactorAry :=
    ⟨yTraceAry.a0 / (imgHeight : ℚ) - rsExpFactor,
     yTraceAry.a1 / (imgHeight : ℚ) - rsExpFactor,
     yTraceAry.a2 / (imgHeight : ℚ) - rsExpFactor⟩
  depth := depth
  invDepth := if depth > 1 / 1000 then 1 / depth else -1
  withDepthObservability := false
  weight := 1

/-- `OpticalFlowCorr::MidPoint` (line 104). -/
def MidPoint (corr : OpticalFlowCorr) : Vec2 :=
  (corr.xTraceAry.a1, corr.yTraceAry.a1)

/-- `OpticalFlowCorr::MidPointTime` (lines 108-111):
`timeAry[MID] + rdFactorAry[MID] * readout`. -/
def MidPointTime (corr : OpticalFlowCorr) (readout : ℚ) : ℚ :=
  corr.timeAry.a1 + corr.rdFactorAry.a1 * readout

end OpticalFlowCorr

/-- Modelled from the spec: `LagrangePolynomialTripleMidFOD` (declared in
util/utils.h, which is not among the provided sources) is the first-order
derivative at the middle node of the Lagrange interpolating polynomial
through the three samples `(tAry[i], vAry[i])` — "observed pixel velocity
computed by Lagrange 3-point differentiation of the tracked pixel trace". -/
def LagrangePolynomialTripleMidFOD (tAry vAry : Triple) : ℚ :=
  vAry.a0 * (tAry.a1 - tAry.a2) / ((tAry.a0 - tAry.a1) * (tAry.a0 - tAry.a2)) +
  vAry.a1 * (2 * tAry.a1 - tAry.a0 - tAry.a2) /
    ((tAry.a1 - tAry.a0) * (tAry.a1 - tAry.a2)) +
  vAry.a2 * (tAry.a1 - tAry.a0) / ((tAry.a2 - tAry.a0) * (tAry.a2 - tAry.a1))

namespace OpticalFlowCorr

/-- `OpticalFlowCorr::MidPointVel` (lines 115-136): adjust every sample
time by its readout factor, then differentiate the x and y traces at the
middle sample. -/
def MidPointVel (corr : OpticalFlowCorr) (readout : ℚ) : Vec2 :=
  let newTimeAry : Triple :=
    ⟨corr.timeAry.a0 + corr.rdFactorAry.a0 * readout,
     corr.timeAry.a1 + corr.rdFactorAry.a1 * readout,
     corr.timeAry.a2 + corr.rdFactorAry.a2 * readout⟩
  (LagrangePolynomialTripleMidFOD newTimeAry corr.xTraceAry,
   LagrangePolynomialTripleMidFOD newTimeAry corr.yTraceAry)

end OpticalFlowCorr

/-- A 2x3 rational matrix, stored as rows. -/
structure Mat23 where
  r0 : Vec3
  r1 : Vec3
deriving DecidableEq, Repr

/-- Matrix-vector product for 2x3 matrices. -/
def Mat23.mulVec (m : Mat23) (v : Vec3) : Vec2 :=
  (dot3 m.r0 v, dot3 m.r1 v)

/-- `Sophus::SO3::hat` of a 3-vector: the cross-product matrix. -/
def so3Hat (v : Vec3) : Mat3 where
  r0 := (0, -v.2.2, v.2.1)
  r1 := (v.2.2, 0, -v.1)
  r2 := (-v.2.1, v.1, 0)

namespace RGBDVelocityFactor

/-- `RGBDVelocityFactor::SubAMat` (rgbd_velocity_factor.hpp, lines 172-180). -/
def SubAMat (fx fy up vp : ℚ) : Mat23 where
  r0 := (-fx, 0, up)
  r1 := (0, -fy, vp)

/-- `RGBDVelocityFactor::SubBMat` (rgbd_velocity_factor.hpp, lines 182-192). -/
def SubBMat (fx fy up vp : ℚ) : Mat23 where
  r0 := (up * vp / fy, -fx - up * up / fx, fx * vp / fy)
  r1 := (fy + vp * vp / fy, -up * vp / fx, -fy * up / fx)

/-- `RGBDVelocityFactor::SubMats` (rgbd_velocity_factor.hpp, lines 194-205):
`up = feat(0) - cx`, `vp = feat(1) - cy`. -/
def SubMats (fx fy cx cy : ℚ) (feat : Vec2) : Mat23 × Mat23 :=
  let up := feat.1 - cx
  let vp := feat.2 - cy
  (SubAMat fx fy up vp, SubBMat fx fy up vp)

/-- The scalar parameter blocks read by `RGBDVelocityFactor::operator()`
(rgbd_velocity_factor.hpp, lines 228-242), with the depth-sensor-to-body
rotation `SO3_DnToBr` embedded as a rotation matrix (so that
`SO3::inverse` becomes the matrix transpose). -/
structure Params where
  SO3_DnToBr : Mat3
  POS_DnInBr : Vec3
  TO_DnToBr : ℚ
  READOUT_TIME : ℚ
  FX : ℚ
  FY : ℚ
  CX : ℚ
  CY : ℚ
  ALPHA : ℚ
  BETA : ℚ
  DEPTH_INFO : ℚ

/-- The external ctraj spline helpers used by the factor, as oracles:
`ComputeSplineIndex` for each spline (time ↦ control-point offset and
normalized position), `CeresSplineHelperJet::EvaluateLie` (rotation value
and angular velocity in the body frame), and
`CeresSplineHelperJet::Evaluate` (linear velocity). -/
structure SplineOracle where
  so3Index : ℚ → ℕ × ℚ
  scaleIndex : ℚ → ℕ × ℚ
  evalLie : ℕ → ℚ → Mat3 × Vec3
  evalVec : ℕ → ℚ → Vec3

/-- The pure-translation and pure-rotation pixel-velocity contributions of
`RGBDVelocityFactor::operator()` (rgbd_velocity_factor.hpp, lines 247-275):
both splines are indexed at `timeByBr`, the body angular and linear
velocities are transported to the depth-sensor frame (with the lever-arm
cross term `-hat(SO3_BrToBr0 * POS_DnInBr) * ANG_VEL_BrToBr0InBr0`), and
the camera sub-Jacobians are taken at the anchor pixel.  Returns
`(subAMat * LIN_VEL_DnToBr0InDn, subBMat * ANG_VEL_DnToBr0InDn)`. -/
def velContributions (oracle : SplineOracle) (p : Params)
    (corr : OpticalFlowCorr) (timeByBr : ℚ) : Vec2 × Vec2 :=
  let iuSo3 := oracle.so3Index timeByBr
  let iuScale := oracle.scaleIndex timeByBr
  let lie := oracle.evalLie iuSo3.1 iuSo3.2
  let SO3_BrToBr0 := lie.1
  let ANG_VEL_BrToBr0InBr := lie.2
  let SO3_BrToDn := p.SO3_DnToBr.transpose
  let ANG_VEL_BrToBr0InBr0 := SO3_BrToBr0.mulVec ANG_VEL_BrToBr0InBr
  let ANG_VEL_DnToBr0InDn := SO3_BrToDn.mulVec ANG_VEL_BrToBr0InBr
  let LIN_VEL_BrToBr0InBr0 := oracle.evalVec iuScale.1 iuScale.2
  let LIN_VEL_DnToBr0InBr0 :=
    (so3Hat (SO3_BrToBr0.mulVec p.POS_DnInBr)).neg.mulVec ANG_VEL_BrToBr0InBr0 +
    LIN_VEL_BrToBr0InBr0
  let LIN_VEL_DnToBr0InDn :=
    SO3_BrToDn.mulVec (SO3_BrToBr0.transpose.mulVec LIN_VEL_DnToBr0InBr0)
  let sub := SubMats p.FX p.FY p.CX p.CY corr.MidPoint
  (sub.1.mulVec LIN_VEL_DnToBr0InDn, sub.2.mulVec ANG_VEL_DnToBr0InDn)

/-- The predicted pixel velocity `pred` of `RGBDVelocityFactor::operator()`
(rgbd_velocity_factor.hpp, lines 277-286), with the compile-time
`IsInvDepth` template switch embedded as a `Bool`. -/
def predPixelVel (isInvDepth : Bool) (oracle : SplineOracle) (p : Params)
    (corr : OpticalFlowCorr) (timeByBr : ℚ) : Vec2 :=
  let c := velContributions oracle p corr timeByBr
  if isInvDepth then
    (p.DEPTH_INFO / (p.ALPHA + p.BETA * p.DEPTH_INFO)) • c.1 + c.2
  else
    (1 / (p.ALPHA * p.DEPTH_INFO + p.BETA)) • c.1 + c.2

/-- `RGBDVelocityFactor::operator()` (rgbd_velocity_factor.hpp,
lines 212-292): the spline query time is
`timeByBr = _corr->MidPointTime(READOUT_TIME) + TO_DnToBr`, and
`residuals = weight * (pred - _corr->MidPointVel(READOUT_TIME))`. -/
def residual (isInvDepth : Bool) (oracle : SplineOracle) (p : Params)
    (corr : OpticalFlowCorr) (weight : ℚ) : Vec2 :=
  let timeByBr := corr.MidPointTime p.READOUT_TIME + p.TO_DnToBr
  weight • (predPixelVel isInvDepth oracle p corr timeByBr -
    corr.MidPointVel p.READOUT_TIME)

/-- Spec-side formulation ("(1) compute the body-clock time of the
correspondence's anchor sample as `midTime + rowFactor·readout +
timeOffset`"): the anchor (mid, index 1) sample's body-clock time. -/
def specAnchorTime (corr : OpticalFlowCorr) (p : Params) : ℚ :=
  corr.timeAry.a1 + corr.rdFactorAry.a1 * p.READOUT_TIME + p.TO_DnToBr

/-- Spec-side formulation ("observed pixel velocity computed by Lagrange
3-point differentiation of the tracked pixel trace with readout-adjusted
per-sample times"): each sample's time is adjusted to
`timeAry[i] + rdFactorAry[i] * readout`, and the x/y traces are
differentiated at the mid sample. -/
def specObservedPixelVel (corr : OpticalFlowCorr) (readout : ℚ) : Vec2 :=
  let adjusted : Triple :=
    ⟨corr.timeAry.a0 + corr.rdFactorAry.a0 * readout,
     corr.timeAry.a1 + corr.rdFactorAry.a1 * readout,
     corr.timeAry.a2 + corr.rdFactorAry.a2 * readout⟩
  (LagrangePolynomialTripleMidFOD adjusted corr.xTraceAry,
   LagrangePolynomialTripleMidFOD adjusted corr.yTraceAry)

/-- Spec-side formulation ("the inverse-depth and depth variants use
depth-affine denominators `(α + β·d⁻¹)` and `(α·d + β)` respectively"):
the scalar applied to the linear-velocity sub-Jacobian contribution, where
`dinfo` is the `DEPTH_INFO` parameter (playing the role of `d⁻¹` in the
inverse-depth variant and of `d` in the depth variant). -/
def specDepthAffineScale (isInvDepth : Bool) (dinfo α β : ℚ) : ℚ :=
  if isInvDepth then dinfo / (α + β * dinfo) else 1 / (α * dinfo + β)

end RGBDVelocityFactor

/-! ### Helper lemmas about `ActiveEventSurface.GrabEvent` -/

/-- Both branches of `GrabEvent` write the event time into
`_saeLatest[pol](ex, ey)`. -/
theorem grabEvent_saeLatest_self (s : ActiveEventSurface) (p : Bool) (x y : ℕ)
    (t : ℚ) : (s.GrabEvent p x y t).saeLatest p x y = t := by
  by_cases hc : t > s.saeLatest p x y + s.FILTER_THD ∨
      s.saeLatest (!p) x y > s.saeLatest p x y
  · rw [ActiveEventSurface.GrabEvent, if_pos hc]; simp [polUpdate]
  · rw [ActiveEventSurface.GrabEvent, if_neg hc]; simp [polUpdate]

/-- `GrabEvent` leaves the opposite polarity's `_saeLatest` untouched. -/
theorem grabEvent_saeLatest_invpol (s : ActiveEventSurface) (p : Bool) (x y : ℕ)
    (t : ℚ) : (s.GrabEvent p x y t).saeLatest (!p) x y = s.saeLatest (!p) x y := by
  by_cases hc : t > s.saeLatest p x y + s.FILTER_THD ∨
      s.saeLatest (!p) x y > s.saeLatest p x y
  · rw [ActiveEventSurface.GrabEvent, if_pos hc]; cases p <;> simp [polUpdate]
  · rw [ActiveEventSurface.GrabEvent, if_neg hc]; cases p <;> simp [polUpdate]

/-- `GrabEvent` never changes the debounce threshold. -/
theorem grabEvent_FILTER_THD (s : ActiveEventSurface) (p : Bool) (x y : ℕ)
    (t : ℚ) : (s.GrabEvent p x y t).FILTER_THD = s.FILTER_THD := by
  by_cases hc : t > s.saeLatest p x y + s.FILTER_THD ∨
      s.saeLatest (!p) x y > s.saeLatest p x y
  · rw [ActiveEventSurface.GrabEvent, if_pos hc]
  · rw [ActiveEventSurface.GrabEvent, if_neg hc]

/-- One `GrabEvent` step preserves the bound `sae ≤ c` (updated to the new
event time) and the invariant `sae ≤ saeLatest`, provided the event time is
at least the old bound. -/
theorem grabEvent_inv_step (s : ActiveEventSurface) (c : ℚ) (p : Bool)
    (x y : ℕ) (t : ℚ)
    (hle : ∀ q i j, s.sae q i j ≤ c)
    (hinv : ∀ q i j, s.sae q i j ≤ s.saeLatest q i j)
    (hct : c ≤ t) :
    (∀ q i j, (s.GrabEvent p x y t).sae q i j ≤ t) ∧
    (∀ q i j, (s.GrabEvent p x y t).sae q i j ≤ (s.GrabEvent p x y t).saeLatest q i j) := by
  by_cases hc : t > s.saeLatest p x y + s.FILTER_THD ∨
      s.saeLatest (!p) x y > s.saeLatest p x y
  · rw [ActiveEventSurface.GrabEvent, if_pos hc]
    constructor <;> intro q i j <;> by_cases hq : q = p ∧ i = x ∧ j = y
    · show polUpdate s.sae p x y t q i j ≤ t
      unfold polUpdate
      simp [if_pos hq]
    · show polUpdate s.sae p x y t q i j ≤ t
      unfold polUpdate
      rw [if_neg hq]
      exact le_trans (hle q i j) hct
    · show polUpdate s.sae p x y t q i j ≤ polUpdate s.saeLatest p x y t q i j
      unfold polUpdate
      simp [if_pos hq]
    · show polUpdate s.sae p x y t q i j ≤ polUpdate s.saeLatest p x y t q i j
      unfold polUpdate
      rw [if_neg hq, if_neg hq]
      exact hinv q i j
  · rw [ActiveEventSurface.GrabEvent, if_neg hc]
    constructor <;> intro q i j
    · exact le_trans (hle q i j) hct
    · show s.sae q i j ≤ polUpdate s.saeLatest p x y t q i j
      unfold polUpdate
      split
      · exact le_trans (hle q i j) hct
      · exact hinv q i j

/-- Folding a timestamp-ordered event list (every time at least `c`,
pairwise non-decreasing) preserves the invariant `sae ≤ saeLatest`. -/
theorem grabEvents_inv (events : List Event) :
    ∀ (s : ActiveEventSurface) (c : ℚ),
    (∀ q i j, s.sae q i j ≤ c) →
    (∀ q i j, s.sae q i j ≤ s.saeLatest q i j) →
    List.Chain (fun a b => a ≤ b) c (events.map Event.t) →
    ∀ q i j, (s.GrabEvents events).sae q i j ≤ (s.GrabEvents events).saeLatest q i j := by
  induction events with
  | nil => intro s c _ hinv _ q i j; exact hinv q i j
  | cons e es ih =>
      intro s c hle hinv hchain q i j
      rw [List.map_cons, List.chain_cons] at hchain
      have step := grabEvent_inv_step s c e.polarity e.x e.y e.t hle hinv hchain.1
      exact ih (s.GrabEvent e.polarity e.x e.y e.t) e.t step.1 step.2 hchain.2 q i j

/-- A chain of `≤` restricts to any prefix. -/
theorem chain_le_take :
    ∀ (l : List ℚ) (c : ℚ) (n : ℕ),
    List.Chain (fun a b => a ≤ b) c l →
    List.Chain (fun a b => a ≤ b) c (l.take n) := by
  intro l
  induction l with
  | nil => intro c n _; simp [List.Chain.nil]
  | cons a l ih =>
      intro c n hchain
      cases n with
      | zero => simp [List.Chain.nil]
      | succ m =>
          rw [List.chain_cons] at hchain
          rw [List.take_succ_cons, List.chain_cons]
          exact ⟨hchain.1, ih a m hchain.2⟩

/-! ### Claim theorems -/

/-- Claim C1, counterexample: on a fresh 64x48 surface with
`FILTER_THD = 0.01`, ingest a polarity-1 event at (0,0) at `t = 0.005`
(debounced: `sae` stays 0, `saeLatest` becomes 0.005), then one at
`t = 0.012`.  Reading `tLast` from `sae` as the claim states would give
`0.012 > 0 + 0.01`, so the claim predicts `sae` advances to 0.012; the
code reads `tLast` from `saeLatest` (0.005), both debounce disjuncts
fail, and `sae` stays 0. -/
theorem c1_counterexample :
    ((3 : ℚ) / 250 >
      ((ActiveEventSurface.Create 64 48 (1 / 100)).GrabEvent true 0 0
        (1 / 200)).sae true 0 0 +
      ((ActiveEventSurface.Create 64 48 (1 / 100)).GrabEvent true 0 0
        (1 / 200)).FILTER_THD) ∧
    (((ActiveEventSurface.Create 64 48 (1 / 100)).GrabEvent true 0 0
        (1 / 200)).GrabEvent true 0 0 (3 / 250)).sae true 0 0 = 0 ∧
    (0 : ℚ) ≠ 3 / 250 := by
  norm_num [ActiveEventSurface.Create, ActiveEventSurface.GrabEvent, polUpdate]

/-- Claim C1 (amended): for an incoming event of polarity `p` at pixel
(x,y) with time `t`, let `tLast = saeLatest[p](x,y)` and
`tLastInv = saeLatest[¬p](x,y)` (the debounce reads are from `saeLatest`,
not `sae`) as read immediately before the ingestion: if
`t > tLast + FILTER_THD` or `tLastInv > tLast` then both `sae[p](x,y)` and
`saeLatest[p](x,y)` are set to `t`; otherwise only `saeLatest[p](x,y)`
advances to `t` while `sae[p](x,y)` is unchanged. -/
theorem c1_theorem (s : ActiveEventSurface) (p : Bool) (x y : ℕ) (t : ℚ) :
    (t > s.saeLatest p x y + s.FILTER_THD ∨
        s.saeLatest (!p) x y > s.saeLatest p x y →
      (s.GrabEvent p x y t).sae p x y = t ∧
      (s.GrabEvent p x y t).saeLatest p x y = t) ∧
    (¬(t > s.saeLatest p x y + s.FILTER_THD ∨
        s.saeLatest (!p) x y > s.saeLatest p x y) →
      (s.GrabEvent p x y t).sae p x y = s.sae p x y ∧
      (s.GrabEvent p x y t).saeLatest p x y = t) := by
  constructor <;> intro hcond <;>
    [(rw [ActiveEventSurface.GrabEvent, if_pos hcond]);
     (rw [ActiveEventSurface.GrabEvent, if_neg hcond])] <;>
    simp [polUpdate]

/-- Witness for C1: a fresh-surface event at `t = 1` passes the debounce
test and writes both surfaces. -/
theorem c1_witness :
    ((ActiveEventSurface.Create 64 48 (1 / 100)).GrabEvent true 0 0 1).sae
        true 0 0 = 1 ∧
    ((ActiveEventSurface.Create 64 48 (1 / 100)).GrabEvent true 0 0 1).saeLatest
        true 0 0 = 1 :=
  (c1_theorem (ActiveEventSurface.Create 64 48 (1 / 100)) true 0 0 1).1
    (by norm_num [ActiveEventSurface.Create])

/-- Claim C2: two same-polarity events at one pixel within `FILTER_THD`,
with no more-recent opposite-polarity event, leave `sae` unchanged on the
second event and advance only `saeLatest`; concretely, on a fresh 64x48
surface with threshold 0.01 s, polarity-1 events at (10,10) at `t = 0`
and `t = 0.005` leave `sae[1](10,10) ≤ 0` and set
`saeLatest[1](10,10) = 0.005`. -/
theorem c2_theorem :
    (∀ (s : ActiveEventSurface) (p : Bool) (x y : ℕ) (t1 t2 : ℚ),
      t2 ≤ t1 + s.FILTER_THD →
      s.saeLatest (!p) x y ≤ t1 →
      ((s.GrabEvent p x y t1).GrabEvent p x y t2).sae p x y =
        (s.GrabEvent p x y t1).sae p x y ∧
      ((s.GrabEvent p x y t1).GrabEvent p x y t2).saeLatest p x y = t2) ∧
    ((((ActiveEventSurface.Create 64 48 (1 / 100)).GrabEvent true 10 10
        0).GrabEvent true 10 10 (1 / 200)).sae true 10 10 ≤ 0 ∧
      (((ActiveEventSurface.Create 64 48 (1 / 100)).GrabEvent true 10 10
        0).GrabEvent true 10 10 (1 / 200)).saeLatest true 10 10 = 1 / 200) := by
  constructor
  · intro s p x y t1 t2 h2 hInv
    have hLast : (s.GrabEvent p x y t1).saeLatest p x y = t1 :=
      grabEvent_saeLatest_self s p x y t1
    have hInv1 : (s.GrabEvent p x y t1).saeLatest (!p) x y = s.saeLatest (!p) x y :=
      grabEvent_saeLatest_invpol s p x y t1
    have hThd : (s.GrabEvent p x y t1).FILTER_THD = s.FILTER_THD :=
      grabEvent_FILTER_THD s p x y t1
    have hcond : ¬(t2 > (s.GrabEvent p x y t1).saeLatest p x y +
        (s.GrabEvent p x y t1).FILTER_THD ∨
        (s.GrabEvent p x y t1).saeLatest (!p) x y >
          (s.GrabEvent p x y t1).saeLatest p x y) := by
      rw [hLast, hInv1, hThd]
      push_neg
      exact ⟨h2, le_trans hInv (le_refl t1)⟩
    constructor
    · rw [ActiveEventSurface.GrabEvent, if_neg hcond]
    · rw [ActiveEventSurface.GrabEvent, if_neg hcond]
      simp [polUpdate]
  · norm_num [ActiveEventSurface.Create, ActiveEventSurface.GrabEvent, polUpdate]

/-- Witness for C2: the general debounce statement applied at the concrete
scenario of the claim. -/
theorem c2_witness :
    (((ActiveEventSurface.Create 64 48 (1 / 100)).GrabEvent true 10 10
        0).GrabEvent true 10 10 (1 / 200)).saeLatest true 10 10 = 1 / 200 :=
  (c2_theorem.1 (ActiveEventSurface.Create 64 48 (1 / 100)) true 10 10 0
    (1 / 200) (by norm_num [ActiveEventSurface.Create])
    (by norm_num [ActiveEventSurface.Create])).2

/-- Claim C3, counterexample: the single-event sequence at time `-1` has
non-decreasing timestamps, yet after ingesting it into a fresh surface
`sae[1](0,0) = 0 > saeLatest[1](0,0) = -1` (the zero-initialized `sae`
exceeds the unconditionally-advanced `saeLatest`). -/
theorem c3_counterexample :
    List.Chain' (fun a b => a ≤ b)
      (([⟨true, 0, 0, -1⟩] : List Event).map Event.t) ∧
    ¬(((ActiveEventSurface.Create 64 48 (1 / 100)).GrabEvents
        [⟨true, 0, 0, -1⟩]).sae true 0 0 ≤
      ((ActiveEventSurface.Create 64 48 (1 / 100)).GrabEvents
        [⟨true, 0, 0, -1⟩]).saeLatest true 0 0) := by
  norm_num [ActiveEventSurface.Create, ActiveEventSurface.GrabEvents,
    ActiveEventSurface.GrabEvent, polUpdate]

/-- Claim C3 (amended): for every sequence of events with non-negative,
non-decreasing timestamps ingested into a fresh surface, after every
ingestion (i.e. after every prefix of the sequence) and for every pixel
and polarity, `sae[pol](x,y) ≤ saeLatest[pol](x,y)`. -/
theorem c3_theorem (w h : ℕ) (thd : ℚ) (events : List Event) (n : ℕ)
    (hts : List.Chain (fun a b => a ≤ b) 0 (events.map Event.t))
    (p : Bool) (x y : ℕ) :
    ((ActiveEventSurface.Create w h thd).GrabEvents (events.take n)).sae p x y ≤
    ((ActiveEventSurface.Create w h thd).GrabEvents (events.take n)).saeLatest p x y := by
  have hchain : List.Chain (fun a b => a ≤ b) 0 ((events.take n).map Event.t) := by
    rw [List.map_take]
    exact chain_le_take (events.map Event.t) 0 n hts
  exact grabEvents_inv (events.take n) (ActiveEventSurface.Create w h thd) 0
    (fun q i j => le_of_eq rfl) (fun q i j => le_of_eq rfl) hchain p x y

/-- Witness for C3: the invariant holds after ingesting a one-event
sequence at time `1/2`. -/
theorem c3_witness :
    ((ActiveEventSurface.Create 64 48 (1 / 100)).GrabEvents
        (([⟨true, 0, 0, 1 / 2⟩] : List Event).take 1)).sae true 0 0 ≤
    ((ActiveEventSurface.Create 64 48 (1 / 100)).GrabEvents
        (([⟨true, 0, 0, 1 / 2⟩] : List Event).take 1)).saeLatest true 0 0 :=
  c3_theorem 64 48 (1 / 100) [⟨true, 0, 0, 1 / 2⟩] 1
    (List.Chain.cons (by norm_num) List.Chain.nil) true 0 0

/-- Claim C4: for every parameter assignment, spline oracle and
correspondence, the factor residual is
`weight • (predicted - observed)` where the prediction is driven by spline
queries at the anchor body-clock time
`timeAry[MID] + rdFactorAry[MID]·readout + timeOffset`, and the observed
pixel velocity is the Lagrange 3-point mid derivative of the pixel trace
with readout-adjusted per-sample times. -/
theorem c4_theorem (isInvDepth : Bool)
    (oracle : RGBDVelocityFactor.SplineOracle) (p : RGBDVelocityFactor.Params)
    (corr : OpticalFlowCorr) (weight : ℚ) :
    RGBDVelocityFactor.residual isInvDepth oracle p corr weight =
      weight • (RGBDVelocityFactor.predPixelVel isInvDepth oracle p corr
          (RGBDVelocityFactor.specAnchorTime corr p) -
        RGBDVelocityFactor.specObservedPixelVel corr p.READOUT_TIME) :=
  rfl

/-- Claim C5: the predicted pixel velocity scales the linear-velocity
sub-Jacobian contribution by `d⁻¹/(α + β·d⁻¹)` in the inverse-depth
variant and by `1/(α·d + β)` in the depth variant (with `DEPTH_INFO`
playing the role of `d⁻¹` resp. `d`), the angular contribution entering
unscaled; the variant is selected by the (compile-time) `IsInvDepth`
switch. -/
theorem c5_theorem (isInvDepth : Bool)
    (oracle : RGBDVelocityFactor.SplineOracle) (p : RGBDVelocityFactor.Params)
    (corr : OpticalFlowCorr) (timeByBr : ℚ) :
    RGBDVelocityFactor.predPixelVel isInvDepth oracle p corr timeByBr =
      RGBDVelocityFactor.specDepthAffineScale isInvDepth p.DEPTH_INFO p.ALPHA
          p.BETA •
        (RGBDVelocityFactor.velContributions oracle p corr timeByBr).1 +
      (RGBDVelocityFactor.velContributions oracle p corr timeByBr).2 := by
  cases isInvDepth <;> rfl

/-- Claim C6: whenever the refit plane coefficients are not both zero, the
per-pixel flow step records exactly
`nf = (1/(dtdx² + dtdy²))·(dtdx, dtdy)` with `dtdx = -A`, `dtdy = -B`
(all finite), and discards the flow (recording nothing) exactly when its
squared norm exceeds the degeneracy bound `(4·10³)²`. -/
theorem c6_theorem (A B : ℚ) (h : ¬(A = 0 ∧ B = 0)) :
    EventNormFlow.flowFromPlane A B =
      if (-A / (A * A + B * B)) * (-A / (A * A + B * B)) +
          (-B / (A * A + B * B)) * (-B / (A * A + B * B)) > 4000 * 4000 then
        none
      else
        some (FVal.fin (-A / (A * A + B * B)), FVal.fin (-B / (A * A + B * B))) := by
  have hs : 0 < A * A + B * B := by
    rcases eq_or_ne A 0 with hA | hA
    · rcases eq_or_ne B 0 with hB | hB
      · exact absurd ⟨hA, hB⟩ h
      · have hb := mul_self_pos.mpr hB
        nlinarith [mul_self_nonneg A]
    · have ha := mul_self_pos.mpr hA
      nlinarith [mul_self_nonneg B]
  have hden : -A * -A + -B * -B = A * A + B * B := by ring
  have hne : ¬(-A * -A + -B * -B = 0) := by rw [hden]; exact ne_of_gt hs
  have e1 : (1 : ℚ) / (-A * -A + -B * -B) * -A = -A / (A * A + B * B) := by
    rw [hden]; ring
  have e2 : (1 : ℚ) / (-A * -A + -B * -B) * -B = -B / (A * A + B * B) := by
    rw [hden]; ring
  simp only [EventNormFlow.flowFromPlane, FVal.mul, FVal.add, FVal.div,
    if_neg hne, FVal.ltb, e1, e2, decide_eq_true_eq]

/-- Witness for C6: coefficients `A = 1`, `B = 0` give the recorded flow
`(-1, 0)`. -/
theorem c6_witness :
    EventNormFlow.flowFromPlane 1 0 = some (FVal.fin (-1), FVal.fin 0) := by
  have h := c6_theorem 1 0 (by norm_num)
  rw [h]
  norm_num

/-- Claim C9: with refit coefficients `A = 0`, `B = 0` the divisor
`dtdx² + dtdy²` is zero, the flow components evaluate to NaN
(`inf · 0`), the strict degeneracy comparison on the NaN squared norm is
false, and a non-finite flow is therefore still recorded. -/
theorem c9_theorem :
    EventNormFlow.flowFromPlane 0 0 = some (FVal.nan, FVal.nan) ∧
    FVal.nan.isFinite = false ∧
    FVal.ltb (FVal.fin (4000 * 4000)) FVal.nan = false := by
  refine ⟨?_, rfl, rfl⟩
  norm_num [EventNormFlow.flowFromPlane, FVal.mul, FVal.add, FVal.div,
    FVal.ltb]

/-- Cramer's rule is correct: for a nonsingular 3x3 system the returned
vector solves it exactly. -/
theorem cramerSolve_spec (m : Mat3) (b : Vec3) (h : det3 m ≠ 0) :
    m.mulVec (cramerSolve m b) = b := by
  obtain ⟨⟨m00, m01, m02⟩, ⟨m10, m11, m12⟩, ⟨m20, m21, m22⟩⟩ := m
  obtain ⟨b0, b1, b2⟩ := b
  simp only [cramerSolve, det3, Mat3.setCol0, Mat3.setCol1, Mat3.setCol2,
    Mat3.mulVec, dot3] at h ⊢
  rw [if_neg h]
  simp only [Prod.mk.injEq]
  refine ⟨?_, ?_, ?_⟩ <;> field_simp <;> ring

/-- Claim C7: the local-plane sample-consensus model has minimal sample
size exactly 3; the distance score of `(x, y, t)` against `(A, B, C)` is
`|t - tPred|` with `tPred = -(A·x + B·y + C)`; and the per-trial model is
the closed-form least-squares normal-equations solve of
`t = -(A·x + B·y + C)` over the sampled points (whenever the normal
matrix is nonsingular, the returned model satisfies the normal
equations `(MᵀM)·model = Mᵀb` exactly). -/
theorem c7_theorem :
    EventLocalPlaneSacProblem.getSampleSize = 3 ∧
    (∀ x y t A B C : ℚ,
      EventLocalPlaneSacProblem.PointToPlaneDistance x y t A B C =
        |t - (-(A * x + B * y + C))|) ∧
    (∀ (data : List (ℚ × ℚ × ℚ)) (indices : List ℕ),
      det3 (EventLocalPlaneSacProblem.MtM
        (EventLocalPlaneSacProblem.selectedData data indices)) ≠ 0 →
      (EventLocalPlaneSacProblem.MtM
          (EventLocalPlaneSacProblem.selectedData data indices)).mulVec
        (EventLocalPlaneSacProblem.computeModelCoefficients data indices) =
      EventLocalPlaneSacProblem.Mtb
        (EventLocalPlaneSacProblem.selectedData data indices)) := by
  refine ⟨rfl, fun x y t A B C => rfl, fun data indices h => ?_⟩
  exact cramerSolve_spec _ _ h

/-- Witness for C7: the three sample points `(0,0,1)`, `(1,0,2)`,
`(0,1,3)` give a nonsingular normal matrix, and the computed model
satisfies the normal equations there. -/
theorem c7_witness :
    det3 (EventLocalPlaneSacProblem.MtM (EventLocalPlaneSacProblem.selectedData
      [((0 : ℚ), (0 : ℚ), (1 : ℚ)), (1, 0, 2), (0, 1, 3)] [0, 1, 2])) ≠ 0 ∧
    (EventLocalPlaneSacProblem.MtM (EventLocalPlaneSacProblem.selectedData
        [((0 : ℚ), (0 : ℚ), (1 : ℚ)), (1, 0, 2), (0, 1, 3)] [0, 1, 2])).mulVec
      (EventLocalPlaneSacProblem.computeModelCoefficients
        [((0 : ℚ), (0 : ℚ), (1 : ℚ)), (1, 0, 2), (0, 1, 3)] [0, 1, 2]) =
    EventLocalPlaneSacProblem.Mtb (EventLocalPlaneSacProblem.selectedData
      [((0 : ℚ), (0 : ℚ), (1 : ℚ)), (1, 0, 2), (0, 1, 3)] [0, 1, 2]) := by
  have hdet : det3 (EventLocalPlaneSacProblem.MtM
      (EventLocalPlaneSacProblem.selectedData
        [((0 : ℚ), (0 : ℚ), (1 : ℚ)), (1, 0, 2), (0, 1, 3)] [0, 1, 2])) ≠ 0 := by
    norm_num [EventLocalPlaneSacProblem.selectedData,
      EventLocalPlaneSacProblem.MtM, det3, List.filterMap]
  exact ⟨hdet, c7_theorem.2.2 _ _ hdet⟩

/-- Claim C8: the stored inverse depth is the sentinel `-1` exactly when
the depth is at most the epsilon `1E-3`, and `1/depth` otherwise. -/
theorem c8_theorem (timeAry xTraceAry yTraceAry : Triple) (depth : ℚ)
    (imgHeight : ℕ) (rsExpFactor : ℚ) :
    (OpticalFlowCorr.Create timeAry xTraceAry yTraceAry depth imgHeight
      rsExpFactor).invDepth =
    if depth ≤ 1 / 1000 then -1 else 1 / depth := by
  show (if depth > 1 / 1000 then 1 / depth else -1) = _
  by_cases hd : depth ≤ 1 / 1000
  · rw [if_neg (not_lt.mpr hd), if_pos hd]
  · rw [if_pos (lt_of_not_le hd), if_neg hd]

/-- A `filterMap` is empty iff the function returns `none` everywhere. -/
theorem filterMap_nil_iff {α β : Type} (f : α → Option β) (l : List α) :
    l.filterMap f = [] ↔ ∀ a ∈ l, f a = none := by
  induction l with
  | nil => simp
  | cons a l ih => cases hfa : f a <;> simp [List.filterMap_cons, hfa, ih]

/-- A `flatMap` is empty iff the function returns `[]` everywhere. -/
theorem flatMap_nil_iff {α β : Type} (f : α → List β) (l : List α) :
    l.flatMap f = [] ↔ ∀ a ∈ l, f a = [] := by
  induction l with
  | nil => simp
  | cons a l ih => simp [List.flatMap_cons, ih]

/-- A guarded `some` is `none` iff the guard holds. -/
theorem guard_eq_none_iff {α : Type} (c : Prop) [Decidable c] (x : α) :
    (if c then (none : Option α) else some x) = none ↔ c := by
  split_ifs with hc <;> simp [hc]

/-- A doubly guarded `some` is `none` iff one of the guards holds. -/
theorem guard2_eq_none_iff {α : Type} (c1 c2 : Prop) [Decidable c1]
    [Decidable c2] (x : α) :
    (if c1 then (none : Option α) else if c2 then none else some x) = none ↔
      c1 ∨ c2 := by
  by_cases h1 : c1
  · simp [h1]
  · by_cases h2 : c2 <;> simp [h1, h2]

/-- The active-event list is empty iff every pixel in range fails the
raw-time or recency test. -/
theorem activeEventList_nil_iff (pk : NormFlowPack) (dt : ℚ) :
    pk.activeEventList dt = [] ↔
    ∀ ey < pk.rows, ∀ ex < pk.cols,
      pk.rawTimeSurfaceMap ey ex < 1 / 1000 ∨
      pk.timestamp - pk.rawTimeSurfaceMap ey ex > dt := by
  unfold NormFlowPack.activeEventList
  rw [flatMap_nil_iff]
  constructor
  · intro hall ey hey ex hex
    have h1 := hall ey (List.mem_range.mpr hey)
    rw [filterMap_nil_iff] at h1
    have h2 := h1 ex (List.mem_range.mpr hex)
    rw [guard_eq_none_iff] at h2
    exact h2
  · intro hall ey hey
    rw [filterMap_nil_iff]
    intro ex hex
    rw [guard_eq_none_iff]
    exact hall ey (List.mem_range.mp hey) ex (List.mem_range.mp hex)

/-- The norm-flow event list is empty iff every pixel in range fails the
raw-time or inlier-occupancy test. -/
theorem normFlowEventList_nil_iff (pk : NormFlowPack) :
    pk.normFlowEventList = [] ↔
    ∀ ey < pk.rows, ∀ ex < pk.cols,
      pk.rawTimeSurfaceMap ey ex < 1 / 1000 ∨
      pk.inliersOccupy ey ex = false := by
  unfold NormFlowPack.normFlowEventList
  rw [flatMap_nil_iff]
  constructor
  · intro hall ey hey ex hex
    have h1 := hall ey (List.mem_range.mpr hey)
    rw [filterMap_nil_iff] at h1
    have h2 := h1 ex (List.mem_range.mpr hex)
    rw [guard2_eq_none_iff] at h2
    exact h2
  · intro hall ey hey
    rw [filterMap_nil_iff]
    intro ex hex
    rw [guard2_eq_none_iff]
    exact hall ey (List.mem_range.mp hey) ex (List.mem_range.mp hex)

/-- The `getLast?`-driven packaging returns `none` iff the list is empty,
and any returned pair carries the (nonempty) list itself. -/
theorem packageEvents_spec (events : List Event) :
    ((match events.getLast? with
      | some last => some (last.t, events)
      | none => (none : Option (ℚ × List Event))) = none ↔ events = []) ∧
    (∀ r, (match events.getLast? with
      | some last => some (last.t, events)
      | none => (none : Option (ℚ × List Event))) = some r → r.2 ≠ []) := by
  cases hl : events.getLast? with
  | none =>
      rw [List.getLast?_eq_none_iff] at hl
      simp [hl]
  | some last =>
      have hne : events ≠ [] := by
        intro hnil
        rw [hnil] at hl
        simp at hl
      constructor
      · simp [hne]
      · intro r hr
        have : (last.t, events) = r := by
          simpa using hr
        rw [← this]
        exact hne

/-- Claim C10: `ActiveEvents dt` and `NormFlowEvents` return an absent
result (`nullptr`) exactly when no pixel qualifies (every pixel fails the
raw-time `≥ 1E-3` test, the recency test `timestamp - t ≤ dt` for
`ActiveEvents`, or the inlier-occupancy test for `NormFlowEvents`), and
whenever a result is returned its event array is non-empty. -/
theorem c10_theorem (pk : NormFlowPack) (dt : ℚ) :
    (pk.ActiveEvents dt = none ↔
      ∀ ey < pk.rows, ∀ ex < pk.cols,
        pk.rawTimeSurfaceMap ey ex < 1 / 1000 ∨
        pk.timestamp - pk.rawTimeSurfaceMap ey ex > dt) ∧
    (∀ r, pk.ActiveEvents dt = some r → r.2 ≠ []) ∧
    (pk.NormFlowEvents = none ↔
      ∀ ey < pk.rows, ∀ ex < pk.cols,
        pk.rawTimeSurfaceMap ey ex < 1 / 1000 ∨
        pk.inliersOccupy ey ex = false) ∧
    (∀ r, pk.NormFlowEvents = some r → r.2 ≠ []) := by
  have ha := packageEvents_spec (pk.activeEventList dt)
  have hn := packageEvents_spec pk.normFlowEventList
  refine ⟨?_, ?_, ?_, ?_⟩
  · rw [NormFlowPack.ActiveEvents, ha.1, activeEventList_nil_iff]
  · intro r hr
    exact ha.2 r hr
  · rw [NormFlowPack.NormFlowEvents, hn.1, normFlowEventList_nil_iff]
  · intro r hr
    exact hn.2 r hr

/-- Witness for C10: a 1x1 pack whose single pixel qualifies for both
views yields non-empty event arrays. -/
theorem c10_witness :
    (((1 : ℚ), [(⟨true, 0, 0, 1⟩ : Event)]).2 ≠ []) ∧
    (((1 : ℚ), [(⟨true, 0, 0, 1⟩ : Event)]).2 ≠ []) :=
  ⟨(c10_theorem ⟨1, 1, fun _ _ => 1, fun _ _ => true, fun _ _ => true, 1⟩ 1).2.1
      (1, [⟨true, 0, 0, 1⟩])
      (by norm_num [NormFlowPack.ActiveEvents, NormFlowPack.activeEventList,
        List.range_succ, List.filterMap_cons, List.filterMap_nil]),
   (c10_theorem ⟨1, 1, fun _ _ => 1, fun _ _ => true, fun _ _ => true, 1⟩ 1).2.2.2
      (1, [⟨true, 0, 0, 1⟩])
      (by norm_num [NormFlowPack.NormFlowEvents, NormFlowPack.normFlowEventList,
        List.range_succ, List.filterMap_cons, List.filterMap_nil])⟩

end IKalibr
